import Mathlib

/-!
Verification of the message-handling pipeline of the ai-therapist backend.

The development shallowly embeds the two controller variants found in the
repository:
  * the primary controller `src/controllers/chat.ts`
    (`sendMessage`, `getChatHistory`, `listChatSessions`, `createChatSession`,
    helpers `safeRole`, `toISO`, the 12-turn history window), and
  * the legacy duplicate of the same handlers (`sendMessageLegacy`,
    `getChatSessionLegacy`) whose error handling differs.

External effects are modelled as oracles supplied to the pipeline: each LLM
call is a function from the history context to an `Except` result (`error`
models a thrown provider error, `ok` carries the optional `content` field of
the first choice), `jsonParse` models the JavaScript `JSON.parse` (`none`
models a thrown parse error, which is in particular the behaviour on the
empty string and on malformed input), `inngestSend` models the event
emission, and `save` models the document-store persistence call.  The store
is a list of session documents threaded through each handler.
-/

namespace Therapy

/-- The five-field structured assessment produced by the Analysis Stage. -/
structure Analysis where
  emotionalState : String
  themes : List String
  riskLevel : Int
  recommendedApproach : String
  progressIndicators : List String
deriving DecidableEq, Repr

/-- The neutral default Analysis hard-coded in `sendMessage` (chat.ts). -/
def defaultAnalysis : Analysis :=
  { emotionalState := "neutral"
    themes := []
    riskLevel := 0
    recommendedApproach := "supportive listening"
    progressIndicators := [] }

/-- A JavaScript value as produced by `JSON.parse`: `null`, a value of the
five-field Analysis shape, or any other parsed value (tagged). -/
inductive JsValue where
  | jnull
  | ofAnalysis (a : Analysis)
  | other (tag : String)
deriving DecidableEq, Repr

/-- `v` conforms to the five-field Analysis shape. -/
def conformsShape (v : JsValue) : Prop :=
  ∃ a : Analysis, v = JsValue.ofAnalysis a

/-- JS access `analysis?.emotionalState` (absent on non-Analysis values). -/
def jsEmotionalState : JsValue → Option String
  | JsValue.ofAnalysis a => some a.emotionalState
  | _ => none

/-- JS access `analysis?.riskLevel` (absent on non-Analysis values). -/
def jsRiskLevel : JsValue → Option Int
  | JsValue.ofAnalysis a => some a.riskLevel
  | _ => none

/-- JS `analysis?.emotionalState || "neutral"` (empty string is falsy). -/
def esOrNeutral (v : JsValue) : String :=
  match jsEmotionalState v with
  | some s => if s = "" then "neutral" else s
  | none => "neutral"

/-- JS `Number(analysis?.riskLevel || 0)` (0 is falsy, so 0 stays 0). -/
def riskOrZero (v : JsValue) : Int :=
  match jsRiskLevel v with
  | some n => n
  | none => 0

/-- The metadata record attached to assistant turns on persistence. -/
structure MsgMetadata where
  analysis : JsValue
  currentGoal : Option String
  progressEmotionalState : Option String
  progressRiskLevel : Option Int
deriving DecidableEq, Repr

/-- One turn as stored in a session document.  `content` is `none` when the
stored value is not a string (the schema admits arbitrary documents); every
turn written by the pipeline stores a string. -/
structure StoredMessage where
  role : String
  content : Option String
  timestamp : Nat
  metadata : Option MsgMetadata
deriving DecidableEq, Repr

/-- A session document: opaque token, owner, creation time, status, ordered
message list.  Instants are modelled as naturals. -/
structure Session where
  sessionId : String
  userId : String
  startTime : Nat
  status : String
  messages : List StoredMessage
deriving DecidableEq, Repr

/-- chat.ts `safeRole`: anything other than the exact string "assistant" is
coerced to "user". -/
def safeRole (r : String) : String :=
  if r = "assistant" then "assistant" else "user"

/-- Whitespace stripped from both ends of a character list. -/
def trimChars (l : List Char) : List Char :=
  ((l.dropWhile Char.isWhitespace).reverse.dropWhile Char.isWhitespace).reverse

/-- The JavaScript `.trim()`, as an executable function (whitespace
stripped from both ends). -/
def jsTrim (s : String) : String :=
  String.mk (trimChars s.toList)

/-- `completion.choices[0]?.message?.content?.trim() || ""`. -/
def textOf (c : Option String) : String :=
  jsTrim (c.getD "")

/-- The regex replacement `analysisText.replace(/```json|```/g, "")`: a
left-to-right scan that at each position removes a ```json fence first,
else a ``` fence, else keeps the character. -/
def stripFencesAux : List Char → List Char
  | [] => []
  | c :: rest =>
    if (c :: rest).take 7 = "```json".toList then
      stripFencesAux ((c :: rest).drop 7)
    else if (c :: rest).take 3 = "```".toList then
      stripFencesAux ((c :: rest).drop 3)
    else
      c :: stripFencesAux rest
  termination_by l => l.length
  decreasing_by
    · simp [List.length_drop]; omega
    · simp [List.length_drop]; omega
    · simp

/-- `analysisText.replace(/```json|```/g, "").trim()`. -/
def cleaned (s : String) : String :=
  jsTrim (String.mk (stripFencesAux s.toList))

/-- The history context passed to the LLM: role and content pairs. -/
abbrev Ctx := List (String × String)

/-- chat.ts history window:
`session.messages.slice(-12).filter(m => typeof m?.content === "string")
  .map(m => ({role: safeRole(m.role), content: m.content}))`. -/
def lastMessages (msgs : List StoredMessage) : Ctx :=
  ((msgs.drop (msgs.length - 12)).filter (fun m => m.content.isSome)).map
    (fun m => (safeRole m.role, m.content.getD ""))

/-- Oracle environment for one `sendMessage` request of the primary
controller: the two Analysis Stage call attempts (with and without
`response_format`), the Reply Stage call, `JSON.parse`, the Inngest event
emission, and the document save. -/
structure LLMEnv where
  inngestSend : Except String Unit
  analysisCall1 : Ctx → Except String (Option String)
  analysisCall2 : Ctx → Except String (Option String)
  jsonParse : String → Option JsValue
  replyCall : Ctx → Except String (Option String)
  save : Except String Unit

/-- First Analysis attempt (with `response_format`): the call and the parse
run in one `try`; `none` models a thrown error of either. -/
def analysisAttempt1 (env : LLMEnv) (ctx : Ctx) : Option JsValue :=
  match env.analysisCall1 ctx with
  | Except.error _ => none
  | Except.ok c => env.jsonParse (textOf c)

/-- Second Analysis attempt (fallback without `response_format`): strips
markdown fences before parsing. -/
def analysisAttempt2 (env : LLMEnv) (ctx : Ctx) : Option JsValue :=
  match env.analysisCall2 ctx with
  | Except.error _ => none
  | Except.ok c => env.jsonParse (cleaned (textOf c))

/-- The Analysis Stage of chat.ts: attempt 1, else attempt 2, else keep the
default neutral Analysis (the outer catch logs and continues). -/
def analysisStageChat (env : LLMEnv) (ctx : Ctx) : JsValue :=
  match analysisAttempt1 env ctx with
  | some v => v
  | none =>
    match analysisAttempt2 env ctx with
    | some v => v
    | none => JsValue.ofAnalysis defaultAnalysis

/-- The fixed fallback reply sentence of chat.ts. -/
def defaultReplyChat : String :=
  "I’m here with you. Can you tell me more about what you’re feeling?"

/-- The Reply Stage of chat.ts: a thrown call is fatal; an empty trimmed
reply is replaced by the fixed sentence. -/
def replyStageChat (env : LLMEnv) (ctx : Ctx) : Except String String :=
  match env.replyCall ctx with
  | Except.error e => Except.error e
  | Except.ok c =>
    let t := textOf c
    Except.ok (if t = "" then defaultReplyChat else t)

/-- Outward result of a `sendMessage` request (HTTP status and payload
abstracted to the discriminating data). -/
inductive SendOutcome where
  | unauthorized
  | badRequest
  | notFound
  | forbidden
  | serverError (msg : String)
  | ok (response : String) (analysis : JsValue)
deriving DecidableEq, Repr

/-- `ChatSession.findOne({ sessionId, userId })`: single combined predicate
over identifier and owner. -/
def findSession (store : List Session) (sid uid : String) : Option Session :=
  store.find? (fun s => s.sessionId == sid && s.userId == uid)

/-- `session.save()`: the mutated document replaces the stored one with the
same identifier. -/
def updateStore (store : List Session) (s2 : Session) : List Session :=
  store.map (fun s => if s.sessionId == s2.sessionId then s2 else s)

/-- The user turn pushed by `sendMessage` (no metadata). -/
def userTurn (message : String) (now : Nat) : StoredMessage :=
  { role := "user", content := some message, timestamp := now, metadata := none }

/-- The assistant turn pushed by chat.ts `sendMessage` (metadata carries the
analysis, the current goal, and the derived progress fields). -/
def assistantTurn (aiResponse : String) (v : JsValue) (now : Nat) : StoredMessage :=
  { role := "assistant"
    content := some aiResponse
    timestamp := now
    metadata := some
      { analysis := v
        currentGoal := some "Provide support"
        progressEmotionalState := some (esOrNeutral v)
        progressRiskLevel := some (riskOrZero v) } }

/-- The session after pushing the user and assistant pair. -/
def appendPair (s : Session) (message aiResponse : String) (v : JsValue)
    (now : Nat) : Session :=
  { s with messages :=
      s.messages ++ [userTurn message now, assistantTurn aiResponse v now] }

/-- Tail of chat.ts `sendMessage` after the session is loaded: best-effort
event emission (both outcomes continue), Analysis Stage, Reply Stage (fatal
on error), push of the message pair, save (fatal on error). -/
def sendMessageCore (store : List Session) (session : Session)
    (message : String) (env : LLMEnv) (now : Nat) : SendOutcome × List Session :=
  let ctx := lastMessages session.messages
  let analysis := analysisStageChat env ctx
  match replyStageChat env ctx with
  | Except.error msg => (SendOutcome.serverError msg, store)
  | Except.ok aiResponse =>
    let session2 := appendPair session message aiResponse analysis now
    match env.save with
    | Except.ok _ => (SendOutcome.ok aiResponse analysis, updateStore store session2)
    | Except.error e => (SendOutcome.serverError e, store)

/-- chat.ts `sendMessage`: auth check, body validation
(`!message || !message.trim()`), ownership-checked load, then the pipeline.
The Inngest emission is wrapped in its own try/catch: both outcomes continue
into the same tail. -/
def sendMessage (store : List Session) (user : Option String) (sid : String)
    (body : Option String) (env : LLMEnv) (now : Nat) : SendOutcome × List Session :=
  match user with
  | none => (SendOutcome.unauthorized, store)
  | some uid =>
    match body with
    | none => (SendOutcome.badRequest, store)
    | some message =>
      if jsTrim message = "" then (SendOutcome.badRequest, store)
      else
        match findSession store sid uid with
        | none => (SendOutcome.notFound, store)
        | some session =>
          match env.inngestSend with
          | Except.ok _ => sendMessageCore store session message env now
          | Except.error _ => sendMessageCore store session message env now

/-- One entry of the history payload returned by chat.ts `getChatHistory`. -/
structure HistoryEntry where
  role : String
  content : Option String
  timestamp : Nat
  metadata : Option MsgMetadata
deriving DecidableEq, Repr

/-- Outward result of `getChatHistory`. -/
inductive HistoryOutcome where
  | unauthorized
  | notFound
  | ok (entries : List HistoryEntry)
deriving DecidableEq, Repr

/-- chat.ts `getChatHistory`: ownership-checked load, then the stored turns
normalised through `safeRole` and ISO timestamps. -/
def getChatHistory (store : List Session) (user : Option String)
    (sid : String) : HistoryOutcome :=
  match user with
  | none => HistoryOutcome.unauthorized
  | some uid =>
    match findSession store sid uid with
    | none => HistoryOutcome.notFound
    | some session =>
      HistoryOutcome.ok (session.messages.map (fun m =>
        { role := safeRole m.role
          content := m.content
          timestamp := m.timestamp
          metadata := m.metadata }))

/-- One entry of the `listChatSessions` payload. -/
structure SessionSummary where
  sessionId : String
  startTime : Nat
  status : String
  lastMessage : String
  messagesCount : Nat
deriving DecidableEq, Repr

/-- The per-session formatting of `listChatSessions`. -/
def summarize (s : Session) : SessionSummary :=
  { sessionId := s.sessionId
    startTime := s.startTime
    status := s.status
    lastMessage := ((s.messages.getLast?).bind (fun m => m.content)).getD ""
    messagesCount := s.messages.length }

/-- Outward result of `listChatSessions`. -/
inductive ListOutcome where
  | unauthorized
  | ok (sessions : List SessionSummary)
deriving DecidableEq, Repr

/-- The sort order of `.sort({ startTime: -1 })`: descending start time. -/
def startTimeDesc (a b : Session) : Prop :=
  b.startTime ≤ a.startTime

instance : DecidableRel startTimeDesc :=
  fun a b => Nat.decLe b.startTime a.startTime

instance : IsTotal Session startTimeDesc :=
  ⟨fun a b => Nat.le_total b.startTime a.startTime⟩

instance : IsTrans Session startTimeDesc :=
  ⟨fun _ _ _ hab hbc => Nat.le_trans hbc hab⟩

/-- chat.ts `listChatSessions`: `ChatSession.find({ userId })` filtered by
owner, sorted (stably) by start time descending, then formatted. -/
def listChatSessions (store : List Session) (user : Option String) : ListOutcome :=
  match user with
  | none => ListOutcome.unauthorized
  | some uid =>
    ListOutcome.ok
      (((store.filter (fun s => s.userId == uid)).insertionSort startTimeDesc).map
        summarize)

/-- Modelled from the spec: the repository stores no updatedAt field, so the
most-recently-updated instant of a session is taken as the latest of its
start time and its message timestamps. -/
def lastUpdated (s : Session) : Nat :=
  s.messages.foldl (fun acc m => max acc m.timestamp) s.startTime

/-- Modelled from the spec: ordering by most-recently-updated first. -/
def updatedDesc (a b : Session) : Prop :=
  lastUpdated b ≤ lastUpdated a

instance : DecidableRel updatedDesc :=
  fun a b => Nat.decLe (lastUpdated b) (lastUpdated a)

/-- Modelled from the spec: `listSessions(ownerId)` returning the sessions
owned by the caller ordered by most-recently-updated first (the ordering
chat.ts does not implement). -/
def listSessionsSpec (store : List Session) (uid : String) : List SessionSummary :=
  ((store.filter (fun s => s.userId == uid)).insertionSort updatedDesc).map summarize

/-- Outward result of `createChatSession`. -/
inductive CreateOutcome where
  | unauthorized
  | userNotFound
  | created (sid : String)
deriving DecidableEq, Repr

/-- chat.ts `createChatSession`: a fresh session with status active and an
empty message list.  `userExists` models the `User.findById` lookup. -/
def createChatSession (store : List Session) (user : Option String)
    (userExists : Bool) (newSid : String) (now : Nat) :
    CreateOutcome × List Session :=
  match user with
  | none => (CreateOutcome.unauthorized, store)
  | some uid =>
    if userExists then
      (CreateOutcome.created newSid,
        store ++ [{ sessionId := newSid, userId := uid, startTime := now,
                    status := "active", messages := [] }])
    else (CreateOutcome.userNotFound, store)

/- ===== Legacy controller variant (src/unnamed/part_003) ===== -/

/-- Oracle environment for one legacy `sendMessage` request: the legacy
variant passes no history to the LLM, so the calls are plain results. -/
structure LegacyEnv where
  inngestSend : Except String Unit
  analysisCall : Except String (Option String)
  jsonParse : String → Option JsValue
  replyCall : Except String (Option String)
  save : Except String Unit

/-- The legacy Analysis Stage: the LLM call is not wrapped locally, so a
thrown call propagates; only a parse failure falls back to the default. -/
def analysisStageLegacy (call : Except String (Option String))
    (parse : String → Option JsValue) : Except String JsValue :=
  match call with
  | Except.error e => Except.error e
  | Except.ok c =>
    match parse (cleaned (textOf c)) with
    | some v => Except.ok v
    | none => Except.ok (JsValue.ofAnalysis defaultAnalysis)

/-- The fixed fallback reply sentence of the legacy variant. -/
def defaultReplyLegacy : String :=
  "I\u0027m here to support you."

/-- The assistant turn pushed by the legacy variant (no currentGoal; the
progress fields are read without fallback). -/
def legacyAssistantTurn (resp : String) (v : JsValue) (now : Nat) : StoredMessage :=
  { role := "assistant"
    content := some resp
    timestamp := now
    metadata := some
      { analysis := v
        currentGoal := none
        progressEmotionalState := jsEmotionalState v
        progressRiskLevel := jsRiskLevel v } }

/-- Legacy `sendMessage`: validation is only `if (!message)`; the lookup is
by identifier alone and an ownership mismatch answers 403 while a missing
identifier answers 404; the Inngest emission and the analysis call are not
guarded, so their failures propagate to the outer catch (500). -/
def sendMessageLegacy (store : List Session) (user : Option String)
    (sid : String) (body : Option String) (env : LegacyEnv) (now : Nat) :
    SendOutcome × List Session :=
  match user with
  | none => (SendOutcome.unauthorized, store)
  | some uid =>
    match body with
    | none => (SendOutcome.badRequest, store)
    | some message =>
      if message = "" then (SendOutcome.badRequest, store)
      else
        match store.find? (fun s => s.sessionId == sid) with
        | none => (SendOutcome.notFound, store)
        | some session =>
          if session.userId == uid then
            match env.inngestSend with
            | Except.error e => (SendOutcome.serverError e, store)
            | Except.ok _ =>
              match analysisStageLegacy env.analysisCall env.jsonParse with
              | Except.error e => (SendOutcome.serverError e, store)
              | Except.ok analysis =>
                match env.replyCall with
                | Except.error e => (SendOutcome.serverError e, store)
                | Except.ok c =>
                  let t := textOf c
                  let resp := if t = "" then defaultReplyLegacy else t
                  let session2 := { session with messages :=
                    session.messages ++
                      [userTurn message now, legacyAssistantTurn resp analysis now] }
                  match env.save with
                  | Except.ok _ =>
                    (SendOutcome.ok resp analysis, updateStore store session2)
                  | Except.error e => (SendOutcome.serverError e, store)
          else (SendOutcome.forbidden, store)

/-- Outward result of the legacy `getChatSession`. -/
inductive GetSessionOutcome where
  | notFound
  | ok (session : Session)
deriving DecidableEq, Repr

/-- Legacy `getChatSession`: lookup by identifier with no authentication and
no ownership check; the full session document is returned to any caller. -/
def getChatSessionLegacy (store : List Session) (sid : String) : GetSessionOutcome :=
  match store.find? (fun s => s.sessionId == sid) with
  | none => GetSessionOutcome.notFound
  | some s => GetSessionOutcome.ok s

/- ===== Repeated-request machinery (for the pairing invariant) ===== -/

/-- One `sendMessage` request: body text, oracle environment, instant. -/
structure SendReq where
  message : String
  env : LLMEnv
  time : Nat

/-- A sequence of `sendMessage` requests against one session, threading the
store; returns the outcomes in order and the final store. -/
def runSends (uid sid : String) : List Session → List SendReq →
    List SendOutcome × List Session
  | store, [] => ([], store)
  | store, r :: rs =>
    let p := sendMessage store (some uid) sid (some r.message) r.env r.time
    let q := runSends uid sid p.2 rs
    (p.1 :: q.1, q.2)

/-- A message list consists of strict user/assistant pairs: user turn with
no metadata, then assistant turn with metadata attached. -/
def isPaired : List StoredMessage → Bool
  | [] => true
  | u :: a :: rest =>
    u.role == "user" && u.metadata.isNone &&
      a.role == "assistant" && a.metadata.isSome && isPaired rest
  | [_] => false

/-- The data of one successful request: body, reply, analysis, instant. -/
structure TurnPair where
  msg : String
  resp : String
  analysis : JsValue
  time : Nat

/-- The two turns appended for one successful request. -/
def pairTurns (p : TurnPair) : List StoredMessage :=
  [userTurn p.msg p.time, assistantTurn p.resp p.analysis p.time]

/- ===== Concrete fixtures for witnesses and counterexamples ===== -/

/-- A fresh session owned by alice. -/
def sampleSession : Session :=
  { sessionId := "s1", userId := "alice", startTime := 0, status := "active",
    messages := [] }

/-- A store holding only `sampleSession`. -/
def sampleStore : List Session := [sampleSession]

/-- An environment where both analysis attempts fail to parse and the reply
succeeds. -/
def envAllOk : LLMEnv :=
  { inngestSend := Except.ok ()
    analysisCall1 := fun _ => Except.ok (some "not json")
    analysisCall2 := fun _ => Except.ok (some "")
    jsonParse := fun _ => none
    replyCall := fun _ => Except.ok (some "Thank you for sharing.")
    save := Except.ok () }

/-- `envAllOk` with a failing Reply Stage call. -/
def envReplyFail : LLMEnv :=
  { envAllOk with replyCall := fun _ => Except.error "provider down" }

/-- A legacy environment where everything succeeds (analysis output does not
parse, so the default applies). -/
def legacyEnvOk : LegacyEnv :=
  { inngestSend := Except.ok ()
    analysisCall := Except.ok (some "not json")
    jsonParse := fun _ => none
    replyCall := Except.ok (some "hello")
    save := Except.ok () }

/-- `legacyEnvOk` with a thrown analysis call. -/
def legacyEnvAnalysisFail : LegacyEnv :=
  { legacyEnvOk with analysisCall := Except.error "provider down" }

/-- `legacyEnvOk` with a failing Inngest emission. -/
def legacyEnvInngestFail : LegacyEnv :=
  { legacyEnvOk with inngestSend := Except.error "inngest down" }

/-- One all-successful request fixture. -/
def req1 : SendReq := { message := "hello", env := envAllOk, time := 7 }

/-- Twenty prior user turns (all with string content). -/
def msgs20 : List StoredMessage :=
  (List.range 20).map (fun i =>
    { role := "user", content := some "m", timestamp := i, metadata := none })

/-- A session of carol whose stored roles include values other than the two
public roles. -/
def mixedSession : Session :=
  { sessionId := "s2", userId := "carol", startTime := 0, status := "active",
    messages :=
      [ { role := "system", content := some "x", timestamp := 0, metadata := none },
        { role := "assistant", content := some "y", timestamp := 1, metadata := none },
        { role := "weird", content := none, timestamp := 2, metadata := none } ] }

/-- A store holding only `mixedSession`. -/
def mixedStore : List Session := [mixedSession]

/-- The history entries chat.ts returns for `mixedSession`. -/
def mixedEntries : List HistoryEntry :=
  [ { role := "user", content := some "x", timestamp := 0, metadata := none },
    { role := "assistant", content := some "y", timestamp := 1, metadata := none },
    { role := "user", content := none, timestamp := 2, metadata := none } ]

/-- Owned by u, started first, updated last (a message at instant 10). -/
def sessionA : Session :=
  { sessionId := "a", userId := "u", startTime := 0, status := "active",
    messages :=
      [ { role := "user", content := some "hi", timestamp := 10, metadata := none } ] }

/-- Owned by u, started later, never updated after instant 5. -/
def sessionB : Session :=
  { sessionId := "b", userId := "u", startTime := 5, status := "active",
    messages := [] }

/-- A store where start-time order and last-update order disagree. -/
def twoSessionStore : List Session := [sessionA, sessionB]

/- ===== Helper lemmas ===== -/

/-- A successful ownership-checked lookup returns a stored session with the
queried identifier and owner. -/
lemma mem_of_findSession {store : List Session} {sid uid : String} {s : Session}
    (h : findSession store sid uid = some s) :
    s ∈ store ∧ s.sessionId = sid ∧ s.userId = uid := by
  have hm := List.mem_of_find?_eq_some h
  have hp := List.find?_some h
  simp only [Bool.and_eq_true, beq_iff_eq] at hp
  exact ⟨hm, hp.1, hp.2⟩

/-- After saving a mutated session document, the ownership-checked lookup
finds exactly that document. -/
lemma findSession_updateStore {store : List Session} {s2 : Session} {uid : String}
    (huid : s2.userId = uid)
    (hex : ∃ s, s ∈ store ∧ s.sessionId = s2.sessionId) :
    findSession (updateStore store s2) s2.sessionId uid = some s2 := by
  induction store with
  | nil =>
    rcases hex with ⟨s, hs, _⟩
    cases hs
  | cons h0 t ih =>
    have hrw : updateStore (h0 :: t) s2
        = (if h0.sessionId == s2.sessionId then s2 else h0) :: updateStore t s2 := rfl
    by_cases hh : h0.sessionId = s2.sessionId
    · rw [hrw, if_pos (by simp [hh])]
      simp [findSession, List.find?_cons, huid]
    · rw [hrw, if_neg (by simp [hh])]
      have hstep : findSession (updateStore t s2) s2.sessionId uid = some s2 := by
        apply ih
        rcases hex with ⟨s, hs, hssid⟩
        rcases List.mem_cons.1 hs with rfl | hmem
        · exact absurd hssid hh
        · exact ⟨s, hmem, hssid⟩
      simpa [findSession, List.find?_cons, hh] using hstep

/-- If the pipeline tail reports success, the new store is the old store
with exactly the user/assistant pair appended to the loaded session. -/
lemma sendMessageCore_ok_inv {store : List Session} {session : Session}
    {message : String} {env : LLMEnv} {now : Nat} {r : String} {a : JsValue}
    {store2 : List Session}
    (h : sendMessageCore store session message env now = (SendOutcome.ok r a, store2)) :
    store2 = updateStore store (appendPair session message r a now) := by
  simp only [sendMessageCore] at h
  cases hrep : replyStageChat env (lastMessages session.messages) with
  | error e => rw [hrep] at h; simp at h
  | ok resp =>
    rw [hrep] at h
    cases hsave : env.save with
    | error e => rw [hsave] at h; simp at h
    | ok u =>
      rw [hsave] at h
      have h1 : SendOutcome.ok resp (analysisStageChat env (lastMessages session.messages))
          = SendOutcome.ok r a := congrArg Prod.fst h
      have h2 := congrArg Prod.snd h
      cases h1
      exact h2.symm

/-- If `sendMessage` reports success, the request was valid, the session was
found, and the store gained exactly the appended pair. -/
lemma sendMessage_ok_inv {store : List Session} {uid sid : String}
    {body : Option String} {env : LLMEnv} {now : Nat} {r : String} {a : JsValue}
    {store2 : List Session}
    (h : sendMessage store (some uid) sid body env now = (SendOutcome.ok r a, store2)) :
    ∃ message session, body = some message ∧
      findSession store sid uid = some session ∧
      store2 = updateStore store (appendPair session message r a now) := by
  cases body with
  | none => simp [sendMessage] at h
  | some message =>
    simp only [sendMessage] at h
    by_cases hm : jsTrim message = ""
    · rw [if_pos hm] at h; simp at h
    · rw [if_neg hm] at h
      cases hfind : findSession store sid uid with
      | none => rw [hfind] at h; simp at h
      | some session =>
        rw [hfind] at h
        refine ⟨message, session, rfl, rfl, ?_⟩
        cases hio : env.inngestSend with
        | ok u => rw [hio] at h; exact sendMessageCore_ok_inv h
        | error e => rw [hio] at h; exact sendMessageCore_ok_inv h

/-- Each appended pair contributes two stored turns. -/
lemma pairTurns_flatten_length (pairs : List TurnPair) :
    ((pairs.map pairTurns).flatten).length = 2 * pairs.length := by
  induction pairs with
  | nil => simp
  | cons p ps ih => simp [pairTurns, ih]; omega

/-- A flattened list of appended pairs satisfies the pairing predicate. -/
lemma isPaired_pairTurns_flatten (pairs : List TurnPair) :
    isPaired ((pairs.map pairTurns).flatten) = true := by
  induction pairs with
  | nil => rfl
  | cons p ps ih =>
    simp only [List.map_cons, List.flatten_cons, pairTurns, List.cons_append,
      List.nil_append]
    simpa [isPaired, userTurn, assistantTurn] using ih

/- ===== Claim theorems ===== -/

/-- C1: a request whose Reply Stage LLM call fails returns an error
response (never a success payload) and leaves the store, hence the
session's message list, exactly as it was: nothing is appended, nothing
is persisted. -/
theorem reply_failure_leaves_session_unchanged
    (store : List Session) (user : Option String) (sid : String)
    (body : Option String) (env : LLMEnv) (now : Nat)
    (hfail : ∀ ctx : Ctx, ∃ e, env.replyCall ctx = Except.error e) :
    (sendMessage store user sid body env now).2 = store ∧
    ∀ r a, (sendMessage store user sid body env now).1 ≠ SendOutcome.ok r a := by
  cases user with
  | none => simp [sendMessage]
  | some uid =>
    cases body with
    | none => simp [sendMessage]
    | some message =>
      by_cases hm : jsTrim message = ""
      · simp [sendMessage, hm]
      · cases hfind : findSession store sid uid with
        | none => simp [sendMessage, hm, hfind]
        | some s =>
          obtain ⟨e, he⟩ := hfail (lastMessages s.messages)
          have hc : sendMessageCore store s message env now
              = (SendOutcome.serverError e, store) := by
            simp [sendMessageCore, replyStageChat, he]
          cases hio : env.inngestSend <;>
            simp [sendMessage, hm, hfind, hio, hc]

/-- C1 witness: a concrete request against a concrete store with a failing
reply call. -/
theorem reply_failure_witness :
    (sendMessage sampleStore (some "alice") "s1" (some "hello") envReplyFail 5).2
        = sampleStore ∧
    ∀ r a, (sendMessage sampleStore (some "alice") "s1" (some "hello")
        envReplyFail 5).1 ≠ SendOutcome.ok r a :=
  reply_failure_leaves_session_unchanged sampleStore (some "alice") "s1"
    (some "hello") envReplyFail 5 (fun _ => ⟨"provider down", rfl⟩)

/-- C2: whenever both analysis attempts fail — the call throws, or its
output (malformed, or the empty string) does not parse — the Analysis value
carried forward is exactly the documented neutral default; in particular it
conforms to the five-field shape and is never null. -/
theorem analysis_value_always_five_field_shape
    (env : LLMEnv) (ctx : Ctx)
    (h1 : (∃ e, env.analysisCall1 ctx = Except.error e) ∨
          (∃ c, env.analysisCall1 ctx = Except.ok c ∧
            env.jsonParse (textOf c) = none))
    (h2 : (∃ e, env.analysisCall2 ctx = Except.error e) ∨
          (∃ c, env.analysisCall2 ctx = Except.ok c ∧
            env.jsonParse (cleaned (textOf c)) = none)) :
    analysisStageChat env ctx = JsValue.ofAnalysis defaultAnalysis ∧
    conformsShape (analysisStageChat env ctx) ∧
    analysisStageChat env ctx ≠ JsValue.jnull := by
  have a1 : analysisAttempt1 env ctx = none := by
    rcases h1 with ⟨e, he⟩ | ⟨c, hc, hp⟩
    · simp [analysisAttempt1, he]
    · simp [analysisAttempt1, hc, hp]
  have a2 : analysisAttempt2 env ctx = none := by
    rcases h2 with ⟨e, he⟩ | ⟨c, hc, hp⟩
    · simp [analysisAttempt2, he]
    · simp [analysisAttempt2, hc, hp]
  refine ⟨?_, ?_, ?_⟩ <;> simp [analysisStageChat, a1, a2, conformsShape]

/-- C2 witness: first attempt returns unparsable text, second attempt
returns the empty string. -/
theorem analysis_value_shape_witness :
    analysisStageChat envAllOk [] = JsValue.ofAnalysis defaultAnalysis ∧
    conformsShape (analysisStageChat envAllOk []) ∧
    analysisStageChat envAllOk [] ≠ JsValue.jnull :=
  analysis_value_always_five_field_shape envAllOk []
    (Or.inr ⟨some "not json", rfl, rfl⟩) (Or.inr ⟨some "", rfl, rfl⟩)

/-- C3 counterexample: in the legacy handlers the two cases are
distinguishable.  With a store holding only a session of alice, caller bob
gets 403 on the existing identifier but 404 on an absent one; and the
legacy `getChatSession` returns the full session of alice to any caller
with no ownership check at all. -/
theorem legacy_lookup_distinguishes_owner_mismatch :
    (sendMessageLegacy sampleStore (some "bob") "s1" (some "hello")
        legacyEnvOk 5).1 = SendOutcome.forbidden ∧
    (sendMessageLegacy sampleStore (some "bob") "s2" (some "hello")
        legacyEnvOk 5).1 = SendOutcome.notFound ∧
    SendOutcome.forbidden ≠ SendOutcome.notFound ∧
    getChatSessionLegacy sampleStore "s1" = GetSessionOutcome.ok sampleSession := by
  refine ⟨rfl, rfl, ?_, rfl⟩
  intro h
  cases h

/-- C3 amended: in the primary controller the ownership-checked load is a
single combined predicate, so a missing identifier and an identifier owned
by a different caller produce the identical not-found signal, for
`sendMessage` and `getChatHistory` alike. -/
theorem primary_lookup_collapses_missing_and_foreign
    (store : List Session) (uid sid message : String) (env : LLMEnv) (now : Nat)
    (hm : jsTrim message ≠ "")
    (h : ∀ s ∈ store, s.sessionId = sid → s.userId ≠ uid) :
    sendMessage store (some uid) sid (some message) env now
        = (SendOutcome.notFound, store) ∧
    getChatHistory store (some uid) sid = HistoryOutcome.notFound := by
  have hf : findSession store sid uid = none := by
    apply List.find?_eq_none.2
    intro s hs
    simp only [Bool.and_eq_true, beq_iff_eq, not_and]
    exact h s hs
  constructor
  · simp [sendMessage, hm, hf]
  · simp [getChatHistory, hf]

/-- C3 amended witness: bob queries the identifier of a session owned by
alice and receives the not-found signal from both handlers. -/
theorem primary_lookup_collapses_witness :
    sendMessage sampleStore (some "bob") "s1" (some "hello") envAllOk 5
        = (SendOutcome.notFound, sampleStore) ∧
    getChatHistory sampleStore (some "bob") "s1" = HistoryOutcome.notFound :=
  primary_lookup_collapses_missing_and_foreign sampleStore "bob" "s1" "hello"
    envAllOk 5 (by decide) (by decide)

/-- C4 counterexample: in the legacy variant a thrown Analysis Stage call is
not caught locally; it propagates to the outer catch and the request fails
with a 500 instead of continuing with the default Analysis. -/
theorem legacy_analysis_failure_propagates :
    sendMessageLegacy sampleStore (some "alice") "s1" (some "hello")
        legacyEnvAnalysisFail 5
      = (SendOutcome.serverError "provider down", sampleStore) := rfl

/-- C4 amended: in the primary controller an Analysis Stage failure (the
call throwing or its output failing to parse, in both attempts) is never
propagated: the default neutral Analysis is substituted, the Reply Stage
runs, and the request succeeds with the message pair persisted. -/
theorem analysis_failure_never_propagates
    (store : List Session) (uid sid message : String) (env : LLMEnv)
    (now : Nat) (session : Session) (c : Option String)
    (hm : jsTrim message ≠ "")
    (hfind : findSession store sid uid = some session)
    (h1 : analysisAttempt1 env (lastMessages session.messages) = none)
    (h2 : analysisAttempt2 env (lastMessages session.messages) = none)
    (hreply : env.replyCall (lastMessages session.messages) = Except.ok c)
    (hsave : env.save = Except.ok ()) :
    ∃ resp, sendMessage store (some uid) sid (some message) env now
        = (SendOutcome.ok resp (JsValue.ofAnalysis defaultAnalysis),
           updateStore store
             (appendPair session message resp
               (JsValue.ofAnalysis defaultAnalysis) now)) := by
  have hstage : analysisStageChat env (lastMessages session.messages)
      = JsValue.ofAnalysis defaultAnalysis := by
    simp [analysisStageChat, h1, h2]
  refine ⟨if textOf c = "" then defaultReplyChat else textOf c, ?_⟩
  have hcore : sendMessageCore store session message env now
      = (SendOutcome.ok (if textOf c = "" then defaultReplyChat else textOf c)
           (JsValue.ofAnalysis defaultAnalysis),
         updateStore store
           (appendPair session message
             (if textOf c = "" then defaultReplyChat else textOf c)
             (JsValue.ofAnalysis defaultAnalysis) now)) := by
    simp [sendMessageCore, replyStageChat, hreply, hsave, hstage]
  cases hio : env.inngestSend <;> simp [sendMessage, hm, hfind, hio, hcore]

/-- C4 amended witness: both analysis attempts fail on the concrete
environment, yet the request succeeds with the default Analysis. -/
theorem analysis_failure_never_propagates_witness :
    ∃ resp, sendMessage sampleStore (some "alice") "s1" (some "hello")
        envAllOk 7
      = (SendOutcome.ok resp (JsValue.ofAnalysis defaultAnalysis),
         updateStore sampleStore
           (appendPair sampleSession "hello" resp
             (JsValue.ofAnalysis defaultAnalysis) 7)) :=
  analysis_failure_never_propagates sampleStore "alice" "s1" "hello" envAllOk 7
    sampleSession (some "Thank you for sharing.")
    (by decide) rfl rfl rfl rfl rfl

/-- C7 counterexample: the legacy validation is only a falsiness check, so
a whitespace-only message is not rejected: the pipeline runs to completion
and appends the pair. -/
theorem legacy_blank_message_not_rejected :
    (sendMessageLegacy sampleStore (some "alice") "s1" (some "   ")
        legacyEnvOk 5).1
      = SendOutcome.ok "hello" (JsValue.ofAnalysis defaultAnalysis) ∧
    (sendMessageLegacy sampleStore (some "alice") "s1" (some "   ")
        legacyEnvOk 5).2 ≠ sampleStore := by
  refine ⟨rfl, ?_⟩
  decide

/-- C7 amended: in the primary controller a missing, empty, or
whitespace-only message body is rejected with the validation error before
anything else happens: the result is the bad-request signal and the
unchanged store, for every oracle environment (so no LLM call can have
influenced it). -/
theorem blank_message_rejected_before_llm
    (store : List Session) (uid sid : String) (body : Option String)
    (env : LLMEnv) (now : Nat)
    (hblank : ∀ m, body = some m → jsTrim m = "") :
    sendMessage store (some uid) sid body env now
      = (SendOutcome.badRequest, store) := by
  cases body with
  | none => simp [sendMessage]
  | some m => simp [sendMessage, hblank m rfl]

/-- C7 amended witness: a whitespace-only body on a fully working
environment is still rejected. -/
theorem blank_message_rejected_witness :
    sendMessage sampleStore (some "alice") "s1" (some "   ") envAllOk 5
      = (SendOutcome.badRequest, sampleStore) :=
  blank_message_rejected_before_llm sampleStore "alice" "s1" (some "   ")
    envAllOk 5 (by intro m hm; cases hm; decide)

/-- C8 counterexample: in the legacy variant the event emission is awaited
outside any local catch, so its failure aborts the request with a 500 and
changes the outcome relative to a working emitter. -/
theorem legacy_inngest_failure_surfaced :
    sendMessageLegacy sampleStore (some "alice") "s1" (some "hello")
        legacyEnvInngestFail 5
      = (SendOutcome.serverError "inngest down", sampleStore) ∧
    (sendMessageLegacy sampleStore (some "alice") "s1" (some "hello")
        legacyEnvOk 5).1
      ≠ (sendMessageLegacy sampleStore (some "alice") "s1" (some "hello")
        legacyEnvInngestFail 5).1 := by
  refine ⟨rfl, ?_⟩
  intro h
  cases h

/-- C8 amended: in the primary controller the Inngest emission is wrapped
in its own try/catch, so the result of a request is identical whatever the
emission outcome: the failure is never surfaced and never gates the
pipeline. -/
theorem inngest_outcome_never_affects_result
    (store : List Session) (user : Option String) (sid : String)
    (body : Option String) (env : LLMEnv) (now : Nat)
    (r1 r2 : Except String Unit) :
    sendMessage store user sid body { env with inngestSend := r1 } now
      = sendMessage store user sid body { env with inngestSend := r2 } now := by
  cases user with
  | none => rfl
  | some uid =>
    cases body with
    | none => rfl
    | some message =>
      by_cases hm : jsTrim message = ""
      · simp [sendMessage, hm]
      · cases hfind : findSession store sid uid with
        | none => simp [sendMessage, hm, hfind]
        | some s =>
          cases r1 <;> cases r2 <;> simp [sendMessage, hm, hfind] <;> rfl

/-- A run of all-successful requests appends one user/assistant pair per
request, each assistant turn carrying the Analysis of its own call, and the
session remains findable. -/
lemma runSends_pairs (uid sid : String) (reqs : List SendReq) :
    ∀ store s0, findSession store sid uid = some s0 →
    (∀ out ∈ (runSends uid sid store reqs).1,
        ∃ resp ana, out = SendOutcome.ok resp ana) →
    ∃ s1, findSession (runSends uid sid store reqs).2 sid uid = some s1 ∧
      ∃ pairs : List TurnPair, pairs.length = reqs.length ∧
        s1.messages = s0.messages ++ (pairs.map pairTurns).flatten := by
  induction reqs with
  | nil =>
    intro store s0 h0 _
    exact ⟨s0, h0, [], rfl, by simp⟩
  | cons r rs ih =>
    intro store s0 h0 hok
    have hrun : runSends uid sid store (r :: rs)
        = ((sendMessage store (some uid) sid (some r.message) r.env r.time).1
            :: (runSends uid sid
                (sendMessage store (some uid) sid (some r.message) r.env r.time).2
                rs).1,
           (runSends uid sid
              (sendMessage store (some uid) sid (some r.message) r.env r.time).2
              rs).2) := rfl
    obtain ⟨rr, aa, hfst⟩ :=
      hok _ (by rw [hrun]; exact List.mem_cons_self _ _)
    have hpeq : sendMessage store (some uid) sid (some r.message) r.env r.time
        = (SendOutcome.ok rr aa,
           (sendMessage store (some uid) sid (some r.message) r.env r.time).2) := by
      rw [← hfst]
    obtain ⟨message, session, hbody, hfind, hstore2⟩ := sendMessage_ok_inv hpeq
    obtain rfl : r.message = message := by injection hbody
    have hsess : s0 = session := Option.some.inj (h0.symm.trans hfind)
    subst hsess
    obtain ⟨hmem, hsid, huid⟩ := mem_of_findSession h0
    have hfind2 : findSession
        (sendMessage store (some uid) sid (some r.message) r.env r.time).2 sid uid
        = some (appendPair s0 r.message rr aa r.time) := by
      rw [hstore2]
      have h' := findSession_updateStore
        (show (appendPair s0 r.message rr aa r.time).userId = uid from huid)
        ⟨s0, hmem, rfl⟩
      have hs : (appendPair s0 r.message rr aa r.time).sessionId = sid := hsid
      rw [hs] at h'
      exact h'
    have hoktl : ∀ out ∈ (runSends uid sid
        (sendMessage store (some uid) sid (some r.message) r.env r.time).2 rs).1,
        ∃ resp ana, out = SendOutcome.ok resp ana := by
      intro out hout
      exact hok out (by rw [hrun]; exact List.mem_cons_of_mem _ hout)
    obtain ⟨s1, hf1, pairs, hlen, hmsgs⟩ := ih _ _ hfind2 hoktl
    refine ⟨s1, hf1, ⟨r.message, rr, aa, r.time⟩ :: pairs, by simp [hlen], ?_⟩
    rw [hmsgs]
    simp [appendPair, pairTurns, List.append_assoc]

/-- C5: starting from a session with an empty message list, after N
all-successful `sendMessage` calls the list has length exactly 2N and
consists of strict pairs: a user turn with no metadata followed by an
assistant turn carrying metadata. -/
theorem successful_sends_append_strict_pairs
    (uid sid : String) (store : List Session) (reqs : List SendReq) (s0 : Session)
    (h0 : findSession store sid uid = some s0)
    (hempty : s0.messages = [])
    (hok : ∀ out ∈ (runSends uid sid store reqs).1,
        ∃ resp ana, out = SendOutcome.ok resp ana) :
    ∃ s1, findSession (runSends uid sid store reqs).2 sid uid = some s1 ∧
      s1.messages.length = 2 * reqs.length ∧
      isPaired s1.messages = true := by
  obtain ⟨s1, hf, pairs, hlen, hmsgs⟩ := runSends_pairs uid sid reqs store s0 h0 hok
  refine ⟨s1, hf, ?_, ?_⟩
  · rw [hmsgs, hempty, List.nil_append, pairTurns_flatten_length, hlen]
  · rw [hmsgs, hempty, List.nil_append]
    exact isPaired_pairTurns_flatten pairs

/-- C5 witness: one successful request against the fresh sample session
yields exactly one user/assistant pair. -/
theorem strict_pairing_witness :
    (∀ out ∈ (runSends "alice" "s1" sampleStore [req1]).1,
        ∃ resp ana, out = SendOutcome.ok resp ana) ∧
    ∃ s1, findSession (runSends "alice" "s1" sampleStore [req1]).2 "s1" "alice"
        = some s1 ∧
      s1.messages.length = 2 * [req1].length ∧
      isPaired s1.messages = true := by
  have hok : ∀ out ∈ (runSends "alice" "s1" sampleStore [req1]).1,
      ∃ resp ana, out = SendOutcome.ok resp ana := by
    intro out hout
    have hrun : (runSends "alice" "s1" sampleStore [req1]).1
        = [SendOutcome.ok "Thank you for sharing."
            (JsValue.ofAnalysis defaultAnalysis)] := rfl
    rw [hrun] at hout
    have : out = SendOutcome.ok "Thank you for sharing."
        (JsValue.ofAnalysis defaultAnalysis) := by simpa using hout
    exact ⟨_, _, this⟩
  exact ⟨hok, successful_sends_append_strict_pairs "alice" "s1" sampleStore
    [req1] sampleSession rfl rfl hok⟩

/-- C6: when every stored message has string content and the session holds
at least 12 prior messages, the history window passed as LLM context is
exactly the last 12 stored messages, in their original order (with 20 prior
messages this is messages 9 through 20). -/
theorem history_window_exactly_last_twelve
    (msgs : List StoredMessage)
    (hstr : ∀ m ∈ msgs, m.content.isSome = true)
    (hlen : 12 ≤ msgs.length) :
    lastMessages msgs = (msgs.drop (msgs.length - 12)).map
        (fun m => (safeRole m.role, m.content.getD "")) ∧
    (lastMessages msgs).length = 12 := by
  have hfilter : (msgs.drop (msgs.length - 12)).filter (fun m => m.content.isSome)
      = msgs.drop (msgs.length - 12) := by
    rw [List.filter_eq_self]
    intro m hm
    exact hstr m (List.mem_of_mem_drop hm)
  constructor
  · simp only [lastMessages, hfilter]
  · simp only [lastMessages, hfilter, List.length_map, List.length_drop]
    omega

/-- C6 witness: with 20 prior messages the window is exactly the last 12 in
order. -/
theorem history_window_witness :
    (∀ m ∈ msgs20, m.content.isSome = true) ∧ 12 ≤ msgs20.length ∧
    (lastMessages msgs20 = (msgs20.drop (msgs20.length - 12)).map
        (fun m => (safeRole m.role, m.content.getD "")) ∧
     (lastMessages msgs20).length = 12) :=
  ⟨by decide, by decide,
    history_window_exactly_last_twelve msgs20 (by decide) (by decide)⟩

/-- C9 counterexample: the handler sorts by start time descending, not by
most-recently-updated first.  Session a (started first, updated last) is
listed after session b, the opposite of the most-recently-updated order. -/
theorem list_sessions_not_by_last_update :
    listChatSessions twoSessionStore (some "u")
        = ListOutcome.ok [summarize sessionB, summarize sessionA] ∧
    listSessionsSpec twoSessionStore "u"
        = [summarize sessionA, summarize sessionB] ∧
    summarize sessionA ≠ summarize sessionB ∧
    listChatSessions twoSessionStore (some "u")
        ≠ ListOutcome.ok (listSessionsSpec twoSessionStore "u") := by
  refine ⟨?_, ?_, ?_, ?_⟩ <;> decide

/-- C9 amended: `listChatSessions` returns all and only the sessions owned
by the caller, ordered by start time (most recently started first). -/
theorem list_sessions_owned_sorted_by_start_time
    (store : List Session) (uid : String) :
    ∃ l : List Session,
      listChatSessions store (some uid) = ListOutcome.ok (l.map summarize) ∧
      l.Perm (store.filter (fun s => s.userId == uid)) ∧
      (∀ s : Session, s ∈ l ↔ s ∈ store ∧ s.userId = uid) ∧
      List.Sorted startTimeDesc l := by
  refine ⟨(store.filter (fun s => s.userId == uid)).insertionSort startTimeDesc,
    ?_, List.perm_insertionSort startTimeDesc _, ?_, ?_⟩
  · rfl
  · intro s
    rw [(List.perm_insertionSort startTimeDesc _).mem_iff, List.mem_filter]
    simp [beq_iff_eq]
  · exact List.sorted_insertionSort startTimeDesc _

/-- C10: the history returned by `getChatHistory` carries only the two
public roles; every stored role other than the exact string "assistant"
(system, malformed, anything else) is coerced to "user". -/
theorem history_roles_coerced_to_user_or_assistant
    (store : List Session) (uid sid : String) (entries : List HistoryEntry)
    (h : getChatHistory store (some uid) sid = HistoryOutcome.ok entries) :
    (∀ e ∈ entries, e.role = "user" ∨ e.role = "assistant") ∧
    ∃ session, findSession store sid uid = some session ∧
      entries.map (fun e => e.role) = session.messages.map
        (fun m => if m.role = "assistant" then "assistant" else "user") := by
  simp only [getChatHistory] at h
  cases hfind : findSession store sid uid with
  | none => rw [hfind] at h; simp at h
  | some session =>
    rw [hfind] at h
    have hent : entries = session.messages.map (fun m =>
        ({ role := safeRole m.role, content := m.content,
           timestamp := m.timestamp, metadata := m.metadata } : HistoryEntry)) := by
      have := h
      injection this with h2
      exact h2.symm
    constructor
    · intro e he
      rw [hent] at he
      obtain ⟨m, _, rfl⟩ := List.mem_map.1 he
      by_cases hr : m.role = "assistant"
      · right; simp [safeRole, hr]
      · left; simp [safeRole, hr]
    · refine ⟨session, rfl, ?_⟩
      rw [hent, List.map_map]
      apply List.map_congr_left
      intro m _
      simp [safeRole]

/-- C10 witness: a stored history with roles system, assistant, and a
malformed value comes back as user, assistant, user. -/
theorem history_roles_witness :
    (∀ e ∈ mixedEntries, e.role = "user" ∨ e.role = "assistant") ∧
    ∃ session, findSession mixedStore "s2" "carol" = some session ∧
      mixedEntries.map (fun e => e.role) = session.messages.map
        (fun m => if m.role = "assistant" then "assistant" else "user") :=
  history_roles_coerced_to_user_or_assistant mixedStore "carol" "s2"
    mixedEntries rfl

end Therapy
